import Mathlib

/-!
# Verification of the BERT `extract_features` pipeline

A shallow embedding of the tokenization-alignment and feature-encoding core of
`extract_features.py`: the sub-word sequence builder (`convert_examples_to_features`
with `_truncate_seq_pair`), the per-word alignment tracker and validator from `main`,
and the output key scheme of the feature store.

The sub-word tokenizer is an external collaborator and is modelled as an arbitrary
pure function `tok : String → List String`; the vocabulary lookup as
`toId : String → Nat`.  Python string operations are embedded at character level
(`List Char`), matching CPython semantics for `split`, slicing and prefix tests.
-/

namespace BertExtract

/-! ### Python string and list primitives -/

/-- Split a character list at every character satisfying `p`, keeping empty
segments, as Python's `str.split(sep)` does.  `cur` holds the reversed current
segment. -/
def splitCharsAux (p : Char → Bool) (cur : List Char) : List Char → List (List Char)
  | [] => [cur.reverse]
  | c :: cs => if p c then cur.reverse :: splitCharsAux p [] cs else splitCharsAux p (c :: cur) cs

/-- Python `s.split(" ")` (source line 218): split at every single space, keeping
empty pieces between consecutive spaces. -/
def pySplitSpace (s : String) : List String :=
  (splitCharsAux (fun c => c = ' ') [] s.data).map String.mk

/-- Python `s.strip().split()` (source lines 385 and 411): split on whitespace runs
and drop empty pieces.  The `strip` is absorbed: leading/trailing whitespace only
produces empty pieces, which are dropped. -/
def pySplitWs (s : String) : List String :=
  ((splitCharsAux (fun c => c.isWhitespace) [] s.data).map String.mk).filter
    (fun w => !w.data.isEmpty)

/-- Python `l[0:stop]` where `stop` may be negative (counted from the end of the
list, clamped at 0). -/
def pySlice (l : List String) (stop : Int) : List String :=
  if stop < 0 then l.take (l.length - stop.natAbs) else l.take stop.toNat

/-- Python `w[:n]` on a string: its first `n` characters. -/
def takeStr (w : String) (n : Nat) : String := String.mk (w.data.take n)

/-- Insert `n` into an already sorted list of naturals. -/
def insertSorted (n : Nat) : List Nat → List Nat
  | [] => [n]
  | m :: ms => if n ≤ m then n :: m :: ms else m :: insertSorted n ms

/-- Python `sorted(list(set(l)))`: the distinct values of `l` in increasing order. -/
def pySortedSet (l : List Nat) : List Nat := l.dedup.foldr insertSorted []

/-- Concatenate the per-word sub-token lists, as the `tokens_a.extend(...)` loop of
source lines 219-220 does. -/
def flatTokens (tok : String → List String) : List String → List String
  | [] => []
  | w :: ws => tok w ++ flatTokens tok ws

/-! ### Data model -/

/-- Structure `InputExample` (source lines 87-92): one input line. -/
structure InputExample where
  unique_id : Nat
  text_a : String
  text_b : Option String
deriving DecidableEq

/-- Structure `InputFeatures` (source lines 95-103): one encoded example. -/
structure InputFeatures where
  unique_id : Nat
  tokens : List String
  input_ids : List Nat
  input_mask : List Nat
  input_type_ids : List Nat
deriving DecidableEq

/-- The exceptions `convert_examples_to_features` can raise: `IndexError` from
`tokens_b.pop()` on an empty list inside `_truncate_seq_pair` (line 320), and
`AssertionError` from the three length assertions (lines 283-285).  The code has
no other failure mode on this path. -/
inductive ConvErr
  | indexError
  | assertionError
deriving DecidableEq

/-- Function `read_examples` (source lines 323-344), with the `"(.*) ||| (.*)"` regex match
abstracted: takes the already-split `(text_a, text_b)` of each line and assigns
`unique_id` by 0-based line order. -/
def read_examples (lines : List (String × Option String)) : List InputExample :=
  lines.enum.map (fun p => ⟨p.1, p.2.1, p.2.2⟩)

/-! ### Sequence builder -/

/-- Function `_truncate_seq_pair` (source lines 306-320): while the total length exceeds
`max_length`, pop the last token of `tokens_a` if it is strictly longer, else pop
the last token of `tokens_b`.  Popping an empty `tokens_b` raises `IndexError`,
modelled as `none`.  `max_length` is an integer because the caller passes
`seq_length - 3`, which is negative for `seq_length < 3`. -/
def truncate_seq_pair (a b : List String) (m : Int) : Option (List String × List String) :=
  if (a.length : Int) + (b.length : Int) ≤ m then some (a, b)
  else if h2 : b.length < a.length then truncate_seq_pair a.dropLast b m
  else if h3 : b.isEmpty then none
  else truncate_seq_pair a b.dropLast m
termination_by a.length + b.length
decreasing_by
  · have ha : a ≠ [] := by intro hnil; simp [hnil] at h2
    have : 0 < a.length := List.length_pos.mpr ha
    simp [List.length_dropLast]
    omega
  · have hb : b ≠ [] := by intro hnil; simp [hnil] at h3
    have : 0 < b.length := List.length_pos.mpr hb
    simp [List.length_dropLast]
    omega

/-- The single-sentence truncation of source lines 233-234:
`if len(tokens_a) > seq_length - 2: tokens_a = tokens_a[0:(seq_length - 2)]`,
with Python's integer arithmetic and slice semantics. -/
def truncate_single (a : List String) (s : Nat) : List String :=
  if (a.length : Int) > (s : Int) - 2 then pySlice a ((s : Int) - 2) else a

/-- Variable `tokens_a` (source lines 217-220): `text_a` is split on single spaces and each
word is sub-word tokenized independently, concatenating the results. -/
def tokensA (tok : String → List String) (ex : InputExample) : List String :=
  flatTokens tok (pySplitSpace ex.text_a)

/-- The effective `tokens_b` (source lines 222-224): `None`/empty `text_b` is falsy,
so no tokenization happens; otherwise `text_b` is tokenized as a whole string.
The branches at lines 226 and 264 then test truthiness of the resulting list,
which is emptiness. -/
def effective_tokens_b (tok : String → List String) (ex : InputExample) : List String :=
  match ex.text_b with
  | none => []
  | some t => if t = "" then [] else tok t

/-- Source lines 277-302: zero-pad the three arrays up to `seq_length` (the padding
count is driven by `len(input_ids)` and all three arrays receive the same pad),
check the three length assertions, and build the `InputFeatures` record. -/
def buildFeature (toId : String → Nat) (s uid : Nat) (tks : List String) (tys : List Nat) :
    Except ConvErr InputFeatures :=
  let ids := tks.map toId
  let pad : List Nat := List.replicate (s - ids.length) 0
  if (ids ++ pad).length = s then
    if (List.replicate ids.length 1 ++ pad).length = s then
      if (tys ++ pad).length = s then
        .ok ⟨uid, tks, ids ++ pad, List.replicate ids.length 1 ++ pad, tys ++ pad⟩
      else .error .assertionError
    else .error .assertionError
  else .error .assertionError

/-- The body of the `convert_examples_to_features` loop (source lines 215-302) for
one example: tokenize, truncate (pair heuristic or single-sentence slice), build
the `[CLS]`/`[SEP]`-delimited token and segment-id sequences, pad and check.
Note that after pair truncation the code re-tests `if tokens_b:` (line 264), so a
pair whose `tokens_b` was truncated away falls back to the single-sentence layout. -/
def convert_one_example (tok : String → List String) (toId : String → Nat) (s : Nat)
    (ex : InputExample) : Except ConvErr InputFeatures :=
  let ta := tokensA tok ex
  let tb := effective_tokens_b tok ex
  if tb ≠ [] then
    match truncate_seq_pair ta tb ((s : Int) - 3) with
    | none => .error .indexError
    | some (a, b) =>
      if b ≠ [] then
        buildFeature toId s ex.unique_id
          ("[CLS]" :: (a ++ ["[SEP]"] ++ b ++ ["[SEP]"]))
          (0 :: (List.replicate a.length 0 ++ [0] ++ List.replicate b.length 1 ++ [1]))
      else
        buildFeature toId s ex.unique_id
          ("[CLS]" :: (a ++ ["[SEP]"]))
          (0 :: (List.replicate a.length 0 ++ [0]))
  else
    buildFeature toId s ex.unique_id
      ("[CLS]" :: (truncate_single ta s ++ ["[SEP]"]))
      (0 :: (List.replicate (truncate_single ta s).length 0 ++ [0]))

/-- Function `convert_examples_to_features` (source lines 211-303): the examples are encoded
in order; an exception raised for any example aborts the whole call. -/
def convert_examples_to_features (tok : String → List String) (toId : String → Nat)
    (s : Nat) : List InputExample → Except ConvErr (List InputFeatures)
  | [] => .ok []
  | ex :: exs => do
    let f ← convert_one_example tok toId s ex
    let fs ← convert_examples_to_features tok toId s exs
    .ok (f :: fs)

/-! ### Alignment tracker -/

/-- The per-word loop of source lines 390-396 (and its duplicate at lines 414-420):
walk the words in order; a word with empty sub-tokenization is appended to
`tokens_to_remove`; otherwise the current length of `bert_tokens` is recorded in
`original_to_bert` and the word's sub-tokens are appended to `bert_tokens`.
Returns `(bert_tokens, original_to_bert, tokens_to_remove)`. -/
def trackCore (tok : String → List String) :
    List String → List String → List String × List Nat × List String
  | [], bert => (bert, [], [])
  | w :: ws, bert =>
    if (tok w).isEmpty then
      let r := trackCore tok ws bert
      (r.1, r.2.1, w :: r.2.2)
    else
      let r := trackCore tok ws (bert ++ tok w)
      (r.1, bert.length :: r.2.1, r.2.2)

/-- One sentence of the alignment tracker (source lines 385-403 for the first
sentence with `initBert = ["[CLS]"]`, lines 411-427 for the second with `initBert`
the accumulated sequence): run the per-word loop, remove the words marked for
removal from `original_tokens` by value (the `set` membership filter of lines
397-400), and append the trailing `"[SEP]"`.
Returns `(original_tokens, original_to_bert, bert_tokens)`. -/
def track_sentence (tok : String → List String) (words : List String)
    (initBert : List String) : List String × List Nat × List String :=
  let r := trackCore tok words initBert
  let kept := if r.2.2.isEmpty then words else words.filter (fun t => !(r.2.2.contains t))
  (kept, r.2.1, r.1 ++ ["[SEP]"])

/-- The per-example alignment record `unique_id_to_token_info[uid]`
(source lines 404-407 and 428-431).  `original_to_bert` is stored as a Python
`set`; it is kept here as the recorded list, and `pySortedSet` is applied wherever
the code applies `sorted(list(...))`. -/
structure TokenInfo where
  original_tokens : List String
  original_to_bert : List Nat
  bert_tokens : List String
  original_tokens2 : Option (List String)
  original_to_bert2 : Option (List Nat)
deriving DecidableEq

/-- Build the alignment record for one example (source lines 384-431).  The second
sentence is processed exactly when `example.text_b is not None` (line 410), its
start indices continuing from the accumulated sequence, which already contains the
first sentence's `"[SEP]"`. -/
def buildTokenInfo (tok : String → List String) (ex : InputExample) : TokenInfo :=
  let r1 := track_sentence tok (pySplitWs ex.text_a) ["[CLS]"]
  match ex.text_b with
  | none => ⟨r1.1, r1.2.1, r1.2.2, none, none⟩
  | some tb =>
    let r2 := track_sentence tok (pySplitWs tb) r1.2.2
    ⟨r1.1, r1.2.1, r2.2.2, some r2.1, some r2.2.1⟩

/-! ### Alignment validator -/

/-- Variable `bert_orig_tokens` (source line 444): the tokens of the encoded example at the
sorted recorded start indices. -/
def bertOrigTokens (info : TokenInfo) (f : InputFeatures) : List String :=
  (pySortedSet info.original_to_bert).map (fun i => f.tokens.getD i "")

/-- The three ways the validator of source lines 436-448 can fail:
`alignmentMismatch` is the token-sequence equality assert of line 443,
`lengthMismatch` the count assert of line 446, and `wordStartMismatch`
(`PrefixMismatch` in the spec's taxonomy) the first-letters assert of line 448. -/
inductive CheckError
  | alignmentMismatch
  | lengthMismatch
  | wordStartMismatch
deriving DecidableEq

/-- The validator of source lines 436-448 for one feature: sentence-pair examples
are skipped (`continue` at line 442); otherwise the asserts run in order.  The
assert of line 448 compares `tok[:len(bt)]` with `bt` character for character. -/
def checkFeature (info : TokenInfo) (f : InputFeatures) : Option CheckError :=
  if info.original_tokens2.isSome then none
  else if info.bert_tokens = f.tokens then
    if (bertOrigTokens info f).length = info.original_tokens.length then
      if List.zipWith (fun bt w => takeStr w bt.data.length)
          (bertOrigTokens info f) info.original_tokens = bertOrigTokens info f then none
      else some .wordStartMismatch
    else some .lengthMismatch
  else some .alignmentMismatch

/-! ### Output key scheme -/

/-- The feature-store keys written for one example (source lines 554-565): a
single-sentence example is written under its own `unique_id`; a sentence-pair
example (two gathered tensors, because its record carries `original_to_bert2`)
under `2*unique_id` and `2*unique_id + 1`. -/
def featureKeys (tok : String → List String) (ex : InputExample) : List Nat :=
  if (buildTokenInfo tok ex).original_to_bert2.isSome then
    [2 * ex.unique_id, 2 * ex.unique_id + 1]
  else [ex.unique_id]

/-- All keys written to the feature store for a run. -/
def outputKeys (tok : String → List String) (exs : List InputExample) : List Nat :=
  exs.foldr (fun ex acc => featureKeys tok ex ++ acc) []

/-! ### Specification-side reference definitions

These are written from the words of the specification (not from the source) and
are compared against the source-derived definitions in the refinement claims. -/

/-- Reference step sequence from the spec's truncation policy, two-sentence case:
"while `len(tokens_a) + len(tokens_b) > max_seq_length - 3`, the last token is
removed from whichever of the two sequences is currently longer, with ties broken
by removing from `tokens_b`".  Removing the last token of an empty sequence is
impossible; the stuck state is `none`. -/
def greedy_pair_spec (a b : List String) (m : Int) : Option (List String × List String) :=
  if (a.length : Int) + (b.length : Int) ≤ m then some (a, b)
  else if ha : a.length ≤ b.length then
    if hb : b.isEmpty then none else greedy_pair_spec a b.dropLast m
  else greedy_pair_spec a.dropLast b m
termination_by a.length + b.length
decreasing_by
  · have hbne : b ≠ [] := by intro hnil; simp [hnil] at hb
    have : 0 < b.length := List.length_pos.mpr hbne
    simp [List.length_dropLast]
    omega
  · have hane : a ≠ [] := by intro hnil; simp [hnil] at ha
    have : 0 < a.length := List.length_pos.mpr hane
    simp [List.length_dropLast]
    omega

/-- Reference step sequence from the spec's truncation policy, single-sentence
case: "while `len(tokens_a) > max_seq_length - 2` tokens are removed from the end
of `tokens_a`".  Removing from an empty sequence is impossible; the stuck state is
`none`. -/
def greedy_single_spec (a : List String) (m : Int) : Option (List String) :=
  if (a.length : Int) ≤ m then some a
  else if ha : a.isEmpty then none
  else greedy_single_spec a.dropLast m
termination_by a.length
decreasing_by
  have hane : a ≠ [] := by intro hnil; simp [hnil] at ha
  have : 0 < a.length := List.length_pos.mpr hane
  simp [List.length_dropLast]
  omega

/-- The claim's notion of "case-appropriate prefix": when the tokenizer normalizes
case, the sub-token is compared against the lower-cased original word; otherwise
literally.  (Lower-casing character-wise, as Python's `str.lower` does for ASCII.) -/
def caseAwareStart (lowercases : Bool) (bt w : String) : Bool :=
  if lowercases then takeStr (String.mk (w.data.map Char.toLower)) bt.data.length == bt
  else takeStr w bt.data.length == bt

/-! ### Specification vocabulary for the alignment theorems -/

/-- The words surviving the dropped-word rule: those whose sub-tokenization is
non-empty. -/
def keptWords (tok : String → List String) (words : List String) : List String :=
  words.filter (fun w => !(tok w).isEmpty)

/-- The expected word-start indices: the position each word's first sub-token
occupies when the words are laid out from position `base` on. -/
def startIndices (tok : String → List String) (base : Nat) : List String → List Nat
  | [] => []
  | w :: ws => base :: startIndices tok (base + (tok w).length) ws

/-! ### Concrete instruments for witnesses and counterexamples -/

/-- A tokenizer that maps each word to itself (splitting a multi-word string on
whitespace, so whole-string tokenization of `text_b` yields its words). -/
def wsTok (s : String) : List String := pySplitWs s

/-- A case-normalizing tokenizer: each word maps to its lower-cased self. -/
def lowTok (s : String) : List String :=
  (pySplitWs s).map (fun w => String.mk (w.data.map Char.toLower))

/-- A trivial vocabulary lookup. -/
def constId : String → Nat := fun _ => 1

/-- The sentence-pair example of the spec's worked example, as `read_examples`
parses the line `"New York ||| big city"` at line index 0. -/
def exNY : InputExample := ⟨0, "New York", some "big city"⟩

/-- The encoded features of `exNY` at `max_seq_length = 10` under `wsTok`/`constId`. -/
def featNY : InputFeatures :=
  ⟨0, ["[CLS]", "New", "York", "[SEP]", "big", "city", "[SEP]"],
   [1, 1, 1, 1, 1, 1, 1, 0, 0, 0],
   [1, 1, 1, 1, 1, 1, 1, 0, 0, 0],
   [0, 0, 0, 0, 1, 1, 1, 0, 0, 0]⟩

/-! ### Lemmas about the alignment tracker -/

theorem trackCore_bert (tok : String → List String) (ws : List String) :
    ∀ bert, (trackCore tok ws bert).1 = bert ++ flatTokens tok ws := by
  induction ws with
  | nil => intro bert; simp [trackCore, flatTokens]
  | cons w ws ih =>
    intro bert
    by_cases h : (tok w).isEmpty
    · have hnil : tok w = [] := List.isEmpty_iff.mp h
      simp [trackCore, h, flatTokens, ih, hnil]
    · simp [trackCore, h, flatTokens, ih, List.append_assoc]

theorem trackCore_remove (tok : String → List String) (ws : List String) :
    ∀ bert, (trackCore tok ws bert).2.2 = ws.filter (fun w => (tok w).isEmpty) := by
  induction ws with
  | nil => intro bert; simp [trackCore]
  | cons w ws ih =>
    intro bert
    by_cases h : (tok w).isEmpty
    · simp [trackCore, h, ih]
    · simp [trackCore, h, ih]

theorem keptWords_cons_of_empty (tok : String → List String) (w : String) (ws : List String)
    (h : (tok w).isEmpty) : keptWords tok (w :: ws) = keptWords tok ws := by
  simp [keptWords, h]

theorem keptWords_cons_of_ne (tok : String → List String) (w : String) (ws : List String)
    (h : ¬ (tok w).isEmpty) : keptWords tok (w :: ws) = w :: keptWords tok ws := by
  simp [keptWords, h]

theorem trackCore_indices (tok : String → List String) (ws : List String) :
    ∀ bert, (trackCore tok ws bert).2.1 = startIndices tok bert.length (keptWords tok ws) := by
  induction ws with
  | nil => intro bert; simp [trackCore, keptWords, startIndices]
  | cons w ws ih =>
    intro bert
    by_cases h : (tok w).isEmpty
    · rw [keptWords_cons_of_empty tok w ws h]
      simp [trackCore, h, ih]
    · rw [keptWords_cons_of_ne tok w ws h]
      simp [trackCore, h, ih, startIndices, List.length_append]

theorem filter_not_contains_removed (tok : String → List String) (words : List String) :
    words.filter (fun t => !((words.filter (fun w => (tok w).isEmpty)).contains t)) =
      keptWords tok words := by
  apply List.filter_congr
  intro t ht
  by_cases h : (tok t).isEmpty
  · have : t ∈ words.filter (fun w => (tok w).isEmpty) := List.mem_filter.mpr ⟨ht, h⟩
    simp [keptWords, List.contains, List.elem_eq_mem, this, h]
  · have : t ∉ words.filter (fun w => (tok w).isEmpty) := by
      intro hmem
      exact h (List.mem_filter.mp hmem).2
    simp [keptWords, List.contains, List.elem_eq_mem, this, h]

theorem flatTokens_keptWords (tok : String → List String) (ws : List String) :
    flatTokens tok (keptWords tok ws) = flatTokens tok ws := by
  induction ws with
  | nil => simp [keptWords, flatTokens]
  | cons w ws ih =>
    by_cases h : (tok w).isEmpty
    · have hnil : tok w = [] := List.isEmpty_iff.mp h
      rw [keptWords_cons_of_empty tok w ws h]
      simp [flatTokens, hnil, ih]
    · rw [keptWords_cons_of_ne tok w ws h]
      simp [flatTokens, ih]

/-- The one-sentence tracker in closed form: the surviving words, their start
indices counted from the length of the initial sequence, and the accumulated
token sequence, which only ever contained the surviving words' sub-tokens. -/
theorem track_sentence_eq (tok : String → List String) (words : List String)
    (initBert : List String) :
    track_sentence tok words initBert =
      (keptWords tok words,
       startIndices tok initBert.length (keptWords tok words),
       initBert ++ flatTokens tok (keptWords tok words) ++ ["[SEP]"]) := by
  simp only [track_sentence]
  rw [trackCore_bert, trackCore_remove, trackCore_indices, flatTokens_keptWords]
  by_cases h : (words.filter (fun w => (tok w).isEmpty)).isEmpty
  · have hall : ∀ w ∈ words, ¬ ((tok w).isEmpty = true) := by
      rw [List.isEmpty_iff, List.filter_eq_nil_iff] at h
      exact h
    have hk : keptWords tok words = words :=
      List.filter_eq_self.mpr (by intro w hw; simpa using hall w hw)
    simp [h, hk]
  · simp only [h, if_false, Bool.false_eq_true]
    rw [filter_not_contains_removed]

theorem startIndices_length (tok : String → List String) (ws : List String) :
    ∀ b, (startIndices tok b ws).length = ws.length := by
  induction ws with
  | nil => intro b; simp [startIndices]
  | cons w ws ih => intro b; simp [startIndices, ih]

theorem startIndices_le (tok : String → List String) (ws : List String) :
    ∀ b x, x ∈ startIndices tok b ws → b ≤ x := by
  induction ws with
  | nil => intro b x hx; simp [startIndices] at hx
  | cons w ws ih =>
    intro b x hx
    simp only [startIndices, List.mem_cons] at hx
    rcases hx with rfl | hx
    · exact le_rfl
    · have := ih (b + (tok w).length) x hx
      omega

theorem startIndices_pairwise (tok : String → List String) (ws : List String)
    (h : ∀ w ∈ ws, tok w ≠ []) :
    ∀ b, List.Pairwise (· < ·) (startIndices tok b ws) := by
  induction ws with
  | nil => intro b; simp [startIndices]
  | cons w ws ih =>
    intro b
    have hw : tok w ≠ [] := h w (List.mem_cons_self w ws)
    have hpos : 0 < (tok w).length := List.length_pos.mpr hw
    refine List.pairwise_cons.mpr ⟨?_, ih (fun x hx => h x (List.mem_cons_of_mem w hx)) _⟩
    intro x hx
    have := startIndices_le tok ws (b + (tok w).length) x hx
    omega

/-! ### Claims C3 and C6: the alignment tracker -/

/-- C3: a word with empty sub-tokenization is removed from `original_tokens`,
contributes no start index and no sub-tokens; every other word's recorded start
index is its first sub-token's position in a sequence that never contained the
dropped words' sub-tokens (tracking the surviving words alone gives the identical
record); and the lengths of `original_tokens` and `original_to_bert` agree
exactly. -/
theorem C3_dropped_word (tok : String → List String) (words : List String) :
    (track_sentence tok words ["[CLS]"]).1 = keptWords tok words ∧
    (track_sentence tok words ["[CLS]"]).2.1 = startIndices tok 1 (keptWords tok words) ∧
    (track_sentence tok words ["[CLS]"]).2.2 =
      "[CLS]" :: (flatTokens tok (keptWords tok words) ++ ["[SEP]"]) ∧
    (track_sentence tok words ["[CLS]"]).2.1.length =
      (track_sentence tok words ["[CLS]"]).1.length ∧
    track_sentence tok (keptWords tok words) ["[CLS]"] = track_sentence tok words ["[CLS]"] := by
  have hidem : keptWords tok (keptWords tok words) = keptWords tok words :=
    List.filter_eq_self.mpr (by
      intro w hw
      exact (List.mem_filter.mp hw).2)
  rw [track_sentence_eq, track_sentence_eq, hidem]
  refine ⟨rfl, rfl, rfl, ?_, rfl⟩
  rw [startIndices_length]

/-- C6: when no word of the sentence sub-tokenizes to nothing, the tracker keeps
every whitespace-split word of the input text and the recorded start indices are
strictly increasing. -/
theorem C6_alignment_roundtrip (tok : String → List String) (text : String)
    (h : ∀ w ∈ pySplitWs text, tok w ≠ []) :
    (track_sentence tok (pySplitWs text) ["[CLS]"]).1.length = (pySplitWs text).length ∧
    List.Pairwise (· < ·) (track_sentence tok (pySplitWs text) ["[CLS]"]).2.1 := by
  have hk : keptWords tok (pySplitWs text) = pySplitWs text :=
    List.filter_eq_self.mpr (by intro w hw; simpa using h w hw)
  rw [track_sentence_eq, hk]
  exact ⟨rfl, startIndices_pairwise tok (pySplitWs text) h 1⟩

theorem C6_alignment_roundtrip_witness :
    (track_sentence wsTok (pySplitWs "a b") ["[CLS]"]).1.length = (pySplitWs "a b").length ∧
    List.Pairwise (· < ·) (track_sentence wsTok (pySplitWs "a b") ["[CLS]"]).2.1 :=
  C6_alignment_roundtrip wsTok "a b" (by decide)

/-! ### Claim C5: the worked sentence-pair example -/

/-- C5 (amended): for `"New York ||| big city"` at `max_seq_length = 10` with the
identity tokenizer, the encoded tokens and `input_type_ids` are as the spec's
example states, and `original_to_bert2 = [4, 5]`, whose first element 4 is the
position of `"big"` in the combined sequence; but `original_to_bert` is `[1, 2]`
(one start index per word of the first sentence), not `[1]`. -/
theorem C5_pair_example :
    convert_one_example wsTok constId 10 exNY = .ok featNY ∧
    featNY.tokens = ["[CLS]", "New", "York", "[SEP]", "big", "city", "[SEP]"] ∧
    featNY.input_type_ids = [0, 0, 0, 0, 1, 1, 1, 0, 0, 0] ∧
    pySortedSet (buildTokenInfo wsTok exNY).original_to_bert = [1, 2] ∧
    (buildTokenInfo wsTok exNY).original_to_bert2 = some [4, 5] ∧
    featNY.tokens.getD 4 "" = "big" := by
  refine ⟨?_, rfl, rfl, by decide, by decide, rfl⟩
  have h7 : truncate_seq_pair ["New", "York"] ["big", "city"] (((10 : Nat) : Int) - 3) =
      some (["New", "York"], ["big", "city"]) := by
    rw [truncate_seq_pair]
    norm_num
  have hta : tokensA wsTok exNY = ["New", "York"] := by decide
  have htb : effective_tokens_b wsTok exNY = ["big", "city"] := by decide
  simp only [convert_one_example, hta, htb]
  rw [h7]
  rfl

/-- C5 counterexample: `original_to_bert` for the first sentence of
`"New York ||| big city"` is not `[1]` as claimed. -/
theorem C5_counterexample :
    pySortedSet (buildTokenInfo wsTok exNY).original_to_bert ≠ [1] := by decide

/-! ### Claim C7: the validator's first-letters check -/

/-- C7 (amended): given that the earlier checks pass, the validator fails with
`PrefixMismatch` exactly when the list of literal character-level head slices
`tok[:len(bt)]` differs from `bert_orig_tokens`, i.e. when some surviving word's
start sub-token is not a literal prefix of the original word; no case
normalization is applied. -/
theorem C7_literal_start_check (info : TokenInfo) (f : InputFeatures)
    (h1 : info.original_tokens2 = none)
    (h2 : info.bert_tokens = f.tokens)
    (h3 : (bertOrigTokens info f).length = info.original_tokens.length) :
    (checkFeature info f = some CheckError.wordStartMismatch ↔
      List.zipWith (fun bt w => takeStr w bt.data.length) (bertOrigTokens info f)
          info.original_tokens ≠ bertOrigTokens info f) := by
  simp only [checkFeature, h1, Option.isSome_none, Bool.false_eq_true, if_false, if_pos h2,
    if_pos h3]
  split
  · rename_i hz
    exact iff_of_false (by simp) (by simp only [ne_eq, not_not]; exact hz)
  · rename_i hz
    exact iff_of_true rfl hz

theorem C7_literal_start_check_witness :
    (checkFeature ⟨["ab"], [1], ["[CLS]", "ab", "[SEP]"], none, none⟩
        ⟨0, ["[CLS]", "ab", "[SEP]"], [], [], []⟩ = some CheckError.wordStartMismatch ↔
      List.zipWith (fun bt w => takeStr w bt.data.length)
          (bertOrigTokens ⟨["ab"], [1], ["[CLS]", "ab", "[SEP]"], none, none⟩
            ⟨0, ["[CLS]", "ab", "[SEP]"], [], [], []⟩)
          (TokenInfo.original_tokens ⟨["ab"], [1], ["[CLS]", "ab", "[SEP]"], none, none⟩) ≠
        bertOrigTokens ⟨["ab"], [1], ["[CLS]", "ab", "[SEP]"], none, none⟩
          ⟨0, ["[CLS]", "ab", "[SEP]"], [], [], []⟩) :=
  C7_literal_start_check _ _ rfl rfl (by decide)

/-- C7 counterexample: with a case-normalizing tokenizer, the word `"New"` whose
first sub-token `"new"` is its lower-cased prefix (a case-appropriate prefix in
the claim's sense) makes the validator fail: the check is a literal comparison. -/
theorem C7_case_counterexample :
    convert_one_example lowTok constId 6 ⟨0, "New York", none⟩ =
      .ok ⟨0, ["[CLS]", "new", "york", "[SEP]"], [1, 1, 1, 1, 0, 0], [1, 1, 1, 1, 0, 0],
        [0, 0, 0, 0, 0, 0]⟩ ∧
    checkFeature (buildTokenInfo lowTok ⟨0, "New York", none⟩)
      ⟨0, ["[CLS]", "new", "york", "[SEP]"], [1, 1, 1, 1, 0, 0], [1, 1, 1, 1, 0, 0],
        [0, 0, 0, 0, 0, 0]⟩ = some CheckError.wordStartMismatch ∧
    caseAwareStart true "new" "New" = true ∧
    caseAwareStart true "york" "York" = true := by
  refine ⟨rfl, by decide, by decide, by decide⟩

/-! ### Claim C8: scope of the token-sequence equality check -/

/-- C8 (amended): the validator's token-sequence equality check is skipped only
for sentence-pair examples; on every single-sentence example — truncated or not —
it runs, and it fails with `AlignmentMismatch` exactly when the tracker's sequence
differs from the encoded tokens. -/
theorem C8_check_scope (info : TokenInfo) (f : InputFeatures) :
    (info.original_tokens2.isSome = true → checkFeature info f = none) ∧
    (info.original_tokens2.isSome = false →
      (checkFeature info f = some CheckError.alignmentMismatch ↔
        info.bert_tokens ≠ f.tokens)) := by
  constructor
  · intro h
    simp [checkFeature, h]
  · intro h
    by_cases hbt : info.bert_tokens = f.tokens
    · simp only [checkFeature, h, Bool.false_eq_true, if_false, if_pos hbt]
      constructor
      · intro hc
        split at hc
        · split at hc
          · simp at hc
          · simp at hc
        · simp at hc
      · intro hne
        exact absurd hbt hne
    · simp [checkFeature, h, hbt]

theorem C8_check_scope_witness :
    checkFeature ⟨[], [], [], some [], some []⟩ ⟨0, [], [], [], []⟩ = none ∧
    (checkFeature ⟨["a"], [1], ["[CLS]", "a", "[SEP]"], none, none⟩
        ⟨0, ["[CLS]", "a", "[SEP]"], [], [], []⟩ = some CheckError.alignmentMismatch ↔
      TokenInfo.bert_tokens ⟨["a"], [1], ["[CLS]", "a", "[SEP]"], none, none⟩ ≠
        InputFeatures.tokens ⟨0, ["[CLS]", "a", "[SEP]"], [], [], []⟩) :=
  ⟨(C8_check_scope _ _).1 rfl, (C8_check_scope _ _).2 rfl⟩

/-- C8 counterexample: a truncated single-sentence example (`"a b c"` at
`max_seq_length = 4`) on which the equality check is performed — and fails —
although the claim says it is skipped for truncated examples. -/
theorem C8_counterexample :
    convert_one_example wsTok constId 4 ⟨0, "a b c", none⟩ =
      .ok ⟨0, ["[CLS]", "a", "b", "[SEP]"], [1, 1, 1, 1], [1, 1, 1, 1], [0, 0, 0, 0]⟩ ∧
    (buildTokenInfo wsTok ⟨0, "a b c", none⟩).original_tokens2 = none ∧
    (buildTokenInfo wsTok ⟨0, "a b c", none⟩).bert_tokens ≠
      (["[CLS]", "a", "b", "[SEP]"] : List String) ∧
    checkFeature (buildTokenInfo wsTok ⟨0, "a b c", none⟩)
      ⟨0, ["[CLS]", "a", "b", "[SEP]"], [1, 1, 1, 1], [1, 1, 1, 1], [0, 0, 0, 0]⟩ =
      some CheckError.alignmentMismatch := by
  refine ⟨rfl, by decide, by decide, by decide⟩

/-! ### Claim C10: the output key scheme -/

/-- C10: the feature-store key scheme does not guarantee distinct keys: a
sentence-pair line at index 0 is written under keys `0` and `1`, and a
single-sentence line at index 1 under key `1` — the same key. -/
theorem C10_key_collision :
    outputKeys wsTok (read_examples [("x", some "y"), ("z", none)]) = [0, 1, 1] ∧
    ¬ (outputKeys wsTok (read_examples [("x", some "y"), ("z", none)])).Nodup := by
  exact ⟨by decide, by decide⟩

/-! ### Lemmas about truncation -/

theorem truncate_eq_greedy_aux :
    ∀ (n : Nat) (a b : List String) (m : Int), a.length + b.length ≤ n →
      truncate_seq_pair a b m = greedy_pair_spec a b m := by
  intro n
  induction n with
  | zero =>
    intro a b m h
    have ha : a = [] := List.length_eq_zero.mp (by omega)
    have hb : b = [] := List.length_eq_zero.mp (by omega)
    subst ha
    subst hb
    rw [truncate_seq_pair, greedy_pair_spec]
    by_cases hm : ((0 : Int) ≤ m)
    · simp [hm]
    · simp [hm]
  | succ n ih =>
    intro a b m h
    rw [truncate_seq_pair, greedy_pair_spec]
    by_cases h1 : (a.length : Int) + (b.length : Int) ≤ m
    · rw [if_pos h1, if_pos h1]
    · rw [if_neg h1, if_neg h1]
      by_cases h2 : b.length < a.length
      · have hna : ¬ a.length ≤ b.length := by omega
        rw [dif_pos h2, dif_neg hna]
        apply ih
        have hne : a ≠ [] := by intro hnil; subst hnil; simp at h2
        have : 0 < a.length := List.length_pos.mpr hne
        simp only [List.length_dropLast]
        omega
      · have hab : a.length ≤ b.length := by omega
        rw [dif_neg h2, dif_pos hab]
        by_cases h3 : b.isEmpty
        · rw [dif_pos h3, dif_pos h3]
        · rw [dif_neg h3, dif_neg h3]
          apply ih
          have hne : b ≠ [] := by simpa using h3
          have : 0 < b.length := List.length_pos.mpr hne
          simp only [List.length_dropLast]
          omega

theorem truncate_seq_pair_neg :
    ∀ (n : Nat) (a b : List String) (m : Int), a.length + b.length ≤ n → m < 0 →
      truncate_seq_pair a b m = none := by
  intro n
  induction n with
  | zero =>
    intro a b m h hm
    have ha : a = [] := List.length_eq_zero.mp (by omega)
    have hb : b = [] := List.length_eq_zero.mp (by omega)
    subst ha
    subst hb
    rw [truncate_seq_pair]
    rw [if_neg (by omega)]
    simp
  | succ n ih =>
    intro a b m h hm
    rw [truncate_seq_pair]
    rw [if_neg (by omega)]
    by_cases h2 : b.length < a.length
    · rw [dif_pos h2]
      apply ih _ _ _ _ hm
      have hne : a ≠ [] := by intro hnil; subst hnil; simp at h2
      have : 0 < a.length := List.length_pos.mpr hne
      simp only [List.length_dropLast]
      omega
    · rw [dif_neg h2]
      by_cases h3 : b.isEmpty
      · rw [dif_pos h3]
      · rw [dif_neg h3]
        apply ih _ _ _ _ hm
        have hne : b ≠ [] := by simpa using h3
        have : 0 < b.length := List.length_pos.mpr hne
        simp only [List.length_dropLast]
        omega

theorem greedy_single_eq_take :
    ∀ (n : Nat) (a : List String) (k : Nat), a.length ≤ n →
      greedy_single_spec a (k : Int) = some (if k < a.length then a.take k else a) := by
  intro n
  induction n with
  | zero =>
    intro a k h
    have ha : a = [] := List.length_eq_zero.mp (by omega)
    subst ha
    rw [greedy_single_spec]
    simp
  | succ n ih =>
    intro a k h
    rw [greedy_single_spec]
    by_cases h1 : ((a.length : Int) ≤ (k : Int))
    · have hng : ¬ k < a.length := by omega
      rw [if_pos h1, if_neg hng]
    · rw [if_neg h1]
      have hne : a ≠ [] := by
        intro hnil
        subst hnil
        simp at h1
      have hemp : ¬ (a.isEmpty = true) := by simpa using hne
      rw [dif_neg hemp]
      have hpos : 0 < a.length := List.length_pos.mpr hne
      have hlen : a.dropLast.length ≤ n := by
        simp only [List.length_dropLast]
        omega
      rw [ih a.dropLast k hlen]
      have hklen : k < a.length := by omega
      rw [if_pos hklen]
      by_cases hd : k < a.dropLast.length
      · rw [if_pos hd]
        rw [List.dropLast_eq_take, List.take_take]
        simp only [List.length_dropLast] at hd
        have hmin : min k (a.length - 1) = k := by omega
        rw [hmin]
      · rw [if_neg hd]
        rw [List.dropLast_eq_take]
        simp only [List.length_dropLast] at hd
        have heq : a.length - 1 = k := by omega
        rw [heq]

theorem truncate_single_eq_take (a : List String) (s : Nat) (hs : 2 ≤ s) :
    truncate_single a s = if s - 2 < a.length then a.take (s - 2) else a := by
  unfold truncate_single pySlice
  by_cases hc : s - 2 < a.length
  · have h1 : (a.length : Int) > (s : Int) - 2 := by omega
    have h2 : ¬ ((s : Int) - 2 < 0) := by omega
    rw [if_pos h1, if_neg h2, if_pos hc]
    congr 1
    omega
  · have h1 : ¬ ((a.length : Int) > (s : Int) - 2) := by omega
    rw [if_neg h1, if_neg hc]

/-! ### Claim C1: the truncation policy -/

/-- C1 (amended): the pair truncation of `_truncate_seq_pair` equals the spec's
greedy reference step sequence for every pair of token lists and every max length;
the single-sentence slice `tokens_a[0:(seq_length - 2)]` equals the reference
"remove from the end while too long" sequence whenever `max_seq_length ≥ 2`
(for `max_seq_length < 2` the two differ; see the counterexample). -/
theorem C1_truncation_policy :
    (∀ (a b : List String) (m : Int), truncate_seq_pair a b m = greedy_pair_spec a b m) ∧
    (∀ (a : List String) (s : Nat), 2 ≤ s →
      greedy_single_spec a ((s : Int) - 2) = some (truncate_single a s)) := by
  constructor
  · intro a b m
    exact truncate_eq_greedy_aux (a.length + b.length) a b m le_rfl
  · intro a s hs
    rw [truncate_single_eq_take a s hs]
    have hk : ((s - 2 : Nat) : Int) = (s : Int) - 2 := by omega
    rw [← hk]
    exact greedy_single_eq_take a.length a (s - 2) le_rfl

theorem C1_truncation_policy_witness :
    truncate_seq_pair ["x", "y", "z"] ["w"] 2 = greedy_pair_spec ["x", "y", "z"] ["w"] 2 ∧
    greedy_single_spec ["x", "y"] (((4 : Nat) : Int) - 2) =
      some (truncate_single ["x", "y"] 4) :=
  ⟨C1_truncation_policy.1 ["x", "y", "z"] ["w"] 2,
   C1_truncation_policy.2 ["x", "y"] 4 (by norm_num)⟩

/-- C1 counterexample: at `max_seq_length = 1` the implementation's Python slice
`tokens_a[0:-1]` keeps `["a"]`, while the reference step sequence ("remove from
the end while `len > -1`") can never terminate normally (`none`). -/
theorem C1_counterexample :
    some (truncate_single ["a", "b"] 1) ≠ greedy_single_spec ["a", "b"] ((1 : Int) - 2) := by
  have h : greedy_single_spec ["a", "b"] ((1 : Int) - 2) = none := by
    rw [greedy_single_spec]
    norm_num
    rw [greedy_single_spec]
    norm_num
    rw [greedy_single_spec]
    norm_num
  rw [h]
  simp

/-! ### Lemmas about the sequence builder -/

theorem buildFeature_ok_len {toId : String → Nat} {s uid : Nat} {tks : List String}
    {tys : List Nat} {f : InputFeatures} (h : buildFeature toId s uid tks tys = .ok f) :
    f.input_ids.length = s ∧ f.input_mask.length = s ∧ f.input_type_ids.length = s := by
  simp only [buildFeature] at h
  split at h
  · split at h
    · split at h
      · simp only [Except.ok.injEq] at h
        subst h
        refine ⟨by assumption, by assumption, by assumption⟩
      · simp at h
    · simp at h
  · simp at h

theorem convert_one_ok_len {tok : String → List String} {toId : String → Nat} {s : Nat}
    {ex : InputExample} {f : InputFeatures}
    (h : convert_one_example tok toId s ex = .ok f) :
    f.input_ids.length = s ∧ f.input_mask.length = s ∧ f.input_type_ids.length = s := by
  simp only [convert_one_example] at h
  split at h
  · split at h
    · simp at h
    · split at h
      · exact buildFeature_ok_len h
      · exact buildFeature_ok_len h
  · exact buildFeature_ok_len h

theorem buildFeature_ok_of_le {toId : String → Nat} {s uid : Nat} {tks : List String}
    {tys : List Nat} (hk : tks.length ≤ s) (hty : tys.length = tks.length) :
    buildFeature toId s uid tks tys =
      .ok ⟨uid, tks, tks.map toId ++ List.replicate (s - tks.length) 0,
           List.replicate tks.length 1 ++ List.replicate (s - tks.length) 0,
           tys ++ List.replicate (s - tks.length) 0⟩ := by
  have c1 : (tks.map toId ++ List.replicate (s - tks.length) 0).length = s := by
    simp only [List.length_append, List.length_map, List.length_replicate]
    omega
  have c2 : (List.replicate tks.length 1 ++ List.replicate (s - tks.length) 0).length = s := by
    simp only [List.length_append, List.length_replicate]
    omega
  have c3 : (tys ++ List.replicate (s - tks.length) 0).length = s := by
    simp only [List.length_append, List.length_replicate]
    omega
  simp only [buildFeature, List.length_map]
  rw [if_pos c1, if_pos c2, if_pos c3]

theorem buildFeature_overlong {toId : String → Nat} {s uid : Nat} {tks : List String}
    {tys : List Nat} (hk : s < tks.length) :
    buildFeature toId s uid tks tys = .error .assertionError := by
  have hcond : ¬ ((tks.map toId ++ List.replicate (s - (tks.map toId).length) 0).length = s) := by
    simp only [List.length_append, List.length_map, List.length_replicate]
    omega
  simp only [buildFeature]
  rw [if_neg hcond]

/-! ### Claim C2: the fixed-length invariant -/

/-- C2: every encoded example produced by `convert_examples_to_features` has its
three arrays of length exactly `seq_length`, for every input and every
`max_seq_length`. -/
theorem C2_feature_lengths (tok : String → List String) (toId : String → Nat) (s : Nat) :
    ∀ (exs : List InputExample) (fs : List InputFeatures),
      convert_examples_to_features tok toId s exs = .ok fs →
      ∀ f ∈ fs, f.input_ids.length = s ∧ f.input_mask.length = s ∧
        f.input_type_ids.length = s := by
  intro exs
  induction exs with
  | nil =>
    intro fs h f hf
    simp only [convert_examples_to_features, Except.ok.injEq] at h
    subst h
    simp at hf
  | cons ex exs ih =>
    intro fs h f hf
    simp only [convert_examples_to_features] at h
    cases hc : convert_one_example tok toId s ex with
    | error e =>
      rw [hc] at h
      simp only [Bind.bind, Except.bind] at h
      simp at h
    | ok f0 =>
      rw [hc] at h
      cases hr : convert_examples_to_features tok toId s exs with
      | error e =>
        rw [hr] at h
        simp only [Bind.bind, Except.bind] at h
        simp at h
      | ok fs0 =>
        rw [hr] at h
        simp only [Bind.bind, Except.bind, Except.ok.injEq] at h
        subst h
        rcases List.mem_cons.mp hf with rfl | hmem
        · exact convert_one_ok_len hc
        · exact ih fs0 hr f hmem

/-- The encoded features of `"a b"` at `max_seq_length = 6`. -/
def featAB : InputFeatures :=
  ⟨0, ["[CLS]", "a", "b", "[SEP]"], [1, 1, 1, 1, 0, 0], [1, 1, 1, 1, 0, 0],
   [0, 0, 0, 0, 0, 0]⟩

theorem C2_feature_lengths_witness :
    convert_examples_to_features wsTok constId 6 [⟨0, "a b", none⟩] = .ok [featAB] ∧
    (featAB.input_ids.length = 6 ∧ featAB.input_mask.length = 6 ∧
      featAB.input_type_ids.length = 6) :=
  ⟨rfl, C2_feature_lengths wsTok constId 6 [⟨0, "a b", none⟩] [featAB] rfl featAB (by simp)⟩

/-! ### Claim C4: untruncated single-sentence encoding -/

/-- C4: for a single-sentence input whose sub-token list fits
(`len(tokens) ≤ max_seq_length - 2`), the encoded example has `input_ids` of
length `max_seq_length`, mask sum `len(tokens) + 2` (the tokens plus `[CLS]` and
`[SEP]`), and all-zero `input_type_ids`. -/
theorem C4_single_sentence (tok : String → List String) (toId : String → Nat) (s : Nat)
    (ex : InputExample) (hb : ex.text_b = none)
    (hlen : ((tokensA tok ex).length : Int) ≤ (s : Int) - 2) :
    ∃ f, convert_one_example tok toId s ex = .ok f ∧
      f.input_ids.length = s ∧
      f.input_mask.sum = (tokensA tok ex).length + 2 ∧
      ∀ x ∈ f.input_type_ids, x = 0 := by
  have htb : effective_tokens_b tok ex = [] := by simp [effective_tokens_b, hb]
  have hts : truncate_single (tokensA tok ex) s = tokensA tok ex := by
    unfold truncate_single
    rw [if_neg (by omega)]
  have hlen2 : ("[CLS]" :: (tokensA tok ex ++ ["[SEP]"])).length =
      (tokensA tok ex).length + 2 := by
    simp
  have hk : ("[CLS]" :: (tokensA tok ex ++ ["[SEP]"])).length ≤ s := by
    rw [hlen2]
    omega
  have hty : (0 :: (List.replicate (tokensA tok ex).length 0 ++ [0])).length =
      ("[CLS]" :: (tokensA tok ex ++ ["[SEP]"])).length := by
    simp
  refine ⟨⟨ex.unique_id, "[CLS]" :: (tokensA tok ex ++ ["[SEP]"]),
      ("[CLS]" :: (tokensA tok ex ++ ["[SEP]"])).map toId ++
        List.replicate (s - ("[CLS]" :: (tokensA tok ex ++ ["[SEP]"])).length) 0,
      List.replicate ("[CLS]" :: (tokensA tok ex ++ ["[SEP]"])).length 1 ++
        List.replicate (s - ("[CLS]" :: (tokensA tok ex ++ ["[SEP]"])).length) 0,
      (0 :: (List.replicate (tokensA tok ex).length 0 ++ [0])) ++
        List.replicate (s - ("[CLS]" :: (tokensA tok ex ++ ["[SEP]"])).length) 0⟩,
    ?_, ?_, ?_, ?_⟩
  · simp only [convert_one_example]
    rw [htb]
    rw [if_neg (by simp)]
    rw [hts]
    exact buildFeature_ok_of_le hk hty
  · simp only [List.length_append, List.length_map, List.length_replicate, hlen2]
    omega
  · simp only [List.sum_append, List.sum_replicate, smul_eq_mul, mul_one, mul_zero,
      add_zero, hlen2]
  · intro x hx
    simp [List.mem_append, List.mem_cons, List.mem_replicate] at hx
    tauto

theorem C4_single_sentence_witness :
    ∃ f, convert_one_example wsTok constId 8 ⟨0, "a b", none⟩ = .ok f ∧
      f.input_ids.length = 8 ∧
      f.input_mask.sum = (tokensA wsTok ⟨0, "a b", none⟩).length + 2 ∧
      ∀ x ∈ f.input_type_ids, x = 0 :=
  C4_single_sentence wsTok constId 8 ⟨0, "a b", none⟩ rfl (by decide)

/-! ### Claim C9: degenerate maximum sequence lengths -/

/-- C9 (amended): for a two-sentence input with `max_seq_length < 3` the run fails
with the `IndexError` raised by `tokens_b.pop()` on an empty list inside the
truncation loop; for a single-sentence input with `max_seq_length < 2` it fails
with the `AssertionError` of the post-padding length assertion.  In both cases no
feature is emitted — but the failure is an unguarded exception, not an explicit
precondition guard (the code contains no `TruncationPrecondition`-style check). -/
theorem C9_degenerate_failure (tok : String → List String) (toId : String → Nat)
    (s : Nat) (ex : InputExample) :
    (effective_tokens_b tok ex ≠ [] → s < 3 →
      convert_one_example tok toId s ex = .error .indexError) ∧
    (effective_tokens_b tok ex = [] → s < 2 →
      convert_one_example tok toId s ex = .error .assertionError) := by
  constructor
  · intro htb hs
    have hnone : truncate_seq_pair (tokensA tok ex) (effective_tokens_b tok ex)
        ((s : Int) - 3) = none :=
      truncate_seq_pair_neg ((tokensA tok ex).length + (effective_tokens_b tok ex).length)
        _ _ _ le_rfl (by omega)
    simp only [convert_one_example]
    rw [if_pos htb]
    rw [hnone]
  · intro htb hs
    have hover : s < ("[CLS]" :: (truncate_single (tokensA tok ex) s ++ ["[SEP]"])).length := by
      simp only [List.length_cons, List.length_append, List.length_singleton]
      omega
    simp only [convert_one_example]
    rw [htb]
    rw [if_neg (by simp)]
    exact buildFeature_overlong hover

theorem C9_degenerate_failure_witness :
    convert_one_example wsTok constId 2 ⟨0, "a", some "b"⟩ = .error .indexError ∧
    convert_one_example wsTok constId 1 ⟨0, "a", none⟩ = .error .assertionError :=
  ⟨(C9_degenerate_failure wsTok constId 2 ⟨0, "a", some "b"⟩).1 (by decide) (by norm_num),
   (C9_degenerate_failure wsTok constId 1 ⟨0, "a", none⟩).2 (by decide) (by norm_num)⟩

/-- C9 counterexample: at `max_seq_length = 2` a pair input fails with the
truncation loop's `IndexError` — and the embedding's error type, which enumerates
every error this code path can raise, contains no precondition-guard error at
all: the claimed explicit guard for the degenerate length does not exist. -/
theorem C9_counterexample :
    convert_one_example wsTok constId 2 ⟨1, "a b", some "c"⟩ = .error ConvErr.indexError ∧
    (∀ e : ConvErr, e = ConvErr.indexError ∨ e = ConvErr.assertionError) := by
  constructor
  · have hnone : truncate_seq_pair (tokensA wsTok ⟨1, "a b", some "c"⟩)
        (effective_tokens_b wsTok ⟨1, "a b", some "c"⟩) (((2 : Nat) : Int) - 3) = none :=
      truncate_seq_pair_neg 3 _ _ _ (by decide) (by norm_num)
    simp only [convert_one_example]
    rw [if_pos (by decide)]
    rw [hnone]
  · intro e
    cases e
    · exact Or.inl rfl
    · exact Or.inr rfl

end BertExtract
